import Mathlib

/-!
Verification development for the avdl-rs IDL parser
(crates/avdl-parser/src/parser.rs).

The source is a nom-based parser in Rust.  We shallowly embed it:
input is a list of characters, and every nom parser becomes a function
from input to a result that is either success (remaining input plus a
value), a recoverable error (nom Err::Error), an unrecoverable failure
(nom Err::Failure, produced by cut), or a Rust panic (todo, expect,
unwrap).  Rust character predicates char::is_alphabetic and
char::is_alphanumeric are Unicode-aware; this development models their
ASCII fragment via Lean Char.isAlpha and Char.isAlphanum, which agree
with the Rust predicates on all ASCII inputs.  Floating point literal
values are carried as their source token (IEEE arithmetic is outside
the model); no claim below depends on a float value.
-/

namespace Avdl

/-- Input and extracted text are lists of characters. -/
abbrev Str := List Char

/-- Conversion from a Lean string literal to the character-list form. -/
def s2l (s : String) : Str := s.data

/-- Result of running a parser: mirrors nom IResult plus a panic outcome.
ok carries the remaining input and the parsed value; err is nom
Err::Error (recoverable, alt tries the next branch); fatal is nom
Err::Failure (produced by cut, aborts alternation); panicked models a
Rust panic (todo, expect, unwrap on the error path). -/
inductive PRes (α : Type) where
  | ok (rest : Str) (val : α)
  | err
  | fatal
  | panicked
deriving Repr

/-- A parser in the embedding. -/
abbrev P (α : Type) := Str → PRes α

/-- Sequencing of parsers, the analogue of nom tuple sequencing. -/
def pbind (p : P α) (f : α → P β) : P β := fun inp =>
  match p inp with
  | .ok rest v => f v rest
  | .err => .err
  | .fatal => .fatal
  | .panicked => .panicked

def ppure (v : α) : P α := fun inp => .ok inp v

instance : Monad P where
  pure := ppure
  bind := pbind

/-- nom tag: match a literal string prefix. -/
def ptag (t : Str) : P Str := fun inp =>
  if t.isPrefixOf inp then .ok (inp.drop t.length) t else .err

/-- nom char: match a single literal character. -/
def pchar (c : Char) : P Char := fun inp =>
  match inp with
  | c2 :: rest => if c2 = c then .ok rest c else .err
  | [] => .err

/-- nom take_while: the maximal prefix whose characters satisfy the
predicate; never fails. -/
def ptakeWhile (f : Char → Bool) : P Str := fun inp =>
  .ok (inp.dropWhile f) (inp.takeWhile f)

/-- nom take_while1: like take_while but errors on an empty match. -/
def ptakeWhile1 (f : Char → Bool) : P Str := fun inp =>
  match inp.takeWhile f with
  | [] => .err
  | taken => .ok (inp.dropWhile f) taken

/-- nom take_till: consume until the predicate holds; never fails. -/
def ptakeTill (f : Char → Bool) : P Str := fun inp =>
  .ok (inp.dropWhile (fun c => !(f c))) (inp.takeWhile (fun c => !(f c)))

/-- nom take_until helper: whether pat occurs in inp. -/
def hasSub (pat : Str) : Str → Bool
  | [] => pat.isPrefixOf ([] : Str)
  | c :: rest => pat.isPrefixOf (c :: rest) || hasSub pat rest

/-- nom take_until: consume up to (not including) the first occurrence
of pat; errors when pat does not occur. -/
def ptakeUntil (pat : Str) : P Str := fun inp => go inp []
where
  go : Str → Str → PRes Str
  | [], _ => .err
  | c :: rest, acc =>
      if pat.isPrefixOf (c :: rest) then .ok (c :: rest) acc.reverse
      else go rest (c :: acc)

/-- nom alt over two branches: the second runs only when the first
returns a recoverable error. -/
def palt2 (p q : P α) : P α := fun inp =>
  match p inp with
  | .err => q inp
  | r => r

/-- nom alt over a list of branches. -/
def palt (ps : List (P α)) : P α := fun inp =>
  match ps with
  | [] => .err
  | p :: rest => palt2 p (palt rest) inp

/-- nom opt: errors become a successful none without consuming input. -/
def popt (p : P α) : P (Option α) := fun inp =>
  match p inp with
  | .ok rest v => .ok rest (some v)
  | .err => .ok inp none
  | .fatal => .fatal
  | .panicked => .panicked

/-- nom map. -/
def pmap (f : α → β) (p : P α) : P β := fun inp =>
  match p inp with
  | .ok rest v => .ok rest (f v)
  | .err => .err
  | .fatal => .fatal
  | .panicked => .panicked

/-- nom map_res: a Rust Result error from the mapping function becomes
a recoverable parse error. -/
def pmapRes (p : P α) (f : α → Except Str β) : P β := fun inp =>
  match p inp with
  | .ok rest v =>
      match f v with
      | .ok w => .ok rest w
      | .error _ => .err
  | .err => .err
  | .fatal => .fatal
  | .panicked => .panicked

/-- nom value combinator. -/
def pvalue (v : α) (p : P β) : P α := pmap (fun _ => v) p

/-- nom verify. -/
def pverify (p : P α) (f : α → Bool) : P α := fun inp =>
  match p inp with
  | .ok rest v => if f v then .ok rest v else .err
  | .err => .err
  | .fatal => .fatal
  | .panicked => .panicked

/-- nom cut: turn a recoverable error into a failure. -/
def pcut (p : P α) : P α := fun inp =>
  match p inp with
  | .err => .fatal
  | r => r

/-- nom preceded. -/
def ppreceded (p : P α) (q : P β) : P β :=
  pbind p (fun _ => q)

/-- nom terminated. -/
def pterminated (p : P α) (q : P β) : P α :=
  pbind p (fun v => pmap (fun _ => v) q)

/-- nom delimited. -/
def pdelimited (l : P α) (p : P β) (r : P γ) : P β :=
  pbind l (fun _ => pbind p (fun v => pmap (fun _ => v) r))

/-- nom pair. -/
def ppair (p : P α) (q : P β) : P (α × β) :=
  pbind p (fun a => pmap (fun b => (a, b)) q)

/-- nom many1, fuel-bounded: the first application must succeed; later
recoverable errors stop the loop and yield what was collected. -/
def pmany1 (fuel : Nat) (p : P α) : P (List α) := fun inp =>
  match fuel with
  | 0 => .err
  | fuel + 1 =>
      match p inp with
      | .ok rest v => go fuel rest [v]
      | .err => .err
      | .fatal => .fatal
      | .panicked => .panicked
where
  go : Nat → Str → List α → PRes (List α)
  | 0, _, _ => .err
  | fuel + 1, inp, acc =>
      match p inp with
      | .ok rest v => go fuel rest (acc ++ [v])
      | .err => .ok inp acc
      | .fatal => .fatal
      | .panicked => .panicked

/-- nom separated_list1, fuel-bounded. -/
def psepList1 (fuel : Nat) (sep : P β) (p : P α) : P (List α) := fun inp =>
  match fuel with
  | 0 => .err
  | fuel + 1 =>
      match p inp with
      | .ok rest v => go fuel rest [v]
      | .err => .err
      | .fatal => .fatal
      | .panicked => .panicked
where
  go : Nat → Str → List α → PRes (List α)
  | 0, _, _ => .err
  | fuel + 1, inp, acc =>
      match (pbind sep (fun _ => p)) inp with
      | .ok rest v => go fuel rest (acc ++ [v])
      | .err => .ok inp acc
      | .fatal => .fatal
      | .panicked => .panicked

/-- nom separated_list0, fuel-bounded: an initial recoverable error
yields the empty list. -/
def psepList0 (fuel : Nat) (sep : P β) (p : P α) : P (List α) := fun inp =>
  match psepList1 fuel sep p inp with
  | .ok rest vs => .ok rest vs
  | .err => .ok inp []
  | .fatal => .fatal
  | .panicked => .panicked

/-- nom_permutation permutation_opt over two optional parsers: each is
tried in either order, each at most once, both optional. -/
def permutationOpt2 (p : P α) (q : P β) : P (Option α × Option β) := fun inp =>
  match p inp with
  | .ok rest a =>
      (match q rest with
       | .ok rest2 b => .ok rest2 (some a, some b)
       | .err => .ok rest (some a, none)
       | .fatal => .fatal
       | .panicked => .panicked)
  | .err =>
      (match q inp with
       | .ok rest b =>
           (match p rest with
            | .ok rest2 a => .ok rest2 (some a, some b)
            | .err => .ok rest (none, some b)
            | .fatal => .fatal
            | .panicked => .panicked)
       | .err => .ok inp (none, none)
       | .fatal => .fatal
       | .panicked => .panicked)
  | .fatal => .fatal
  | .panicked => .panicked

/-- nom multispace0 character class: space, tab, carriage return, newline. -/
def isMultispace (c : Char) : Bool :=
  c = ' ' || c = '\t' || c = '\r' || c = '\n'

/-- nom multispace0. -/
def multispace0 : P Str := ptakeWhile isMultispace

/-- nom space0: space and tab only. -/
def space0 : P Str := ptakeWhile (fun c => c = ' ' || c = '\t')

/-- nom digit1. -/
def digit1 : P Str := ptakeWhile1 (fun c => c.isDigit)

end Avdl

namespace Avdl

/-! ## Data model

The schema object model from the apache_avro crate, restricted to the
constructors the parser under verification can produce.  The
always-empty bookkeeping maps (lookup, attributes, custom_attributes)
are omitted: the parser always constructs them empty and never reads
them. -/

/-- apache_avro RecordFieldOrder. -/
inductive RecordFieldOrder where
  | Ascending
  | Descending
  | Ignore
deriving Repr, DecidableEq

/-- apache_avro Name: simple name plus optional namespace.  The Rust
field namespace is spelled ns here (namespace is a Lean keyword). -/
structure AName where
  name : Str
  ns : Option Str
deriving Repr, DecidableEq

/-- A valid simple (undotted) name: first character alphabetic or
underscore, rest alphanumeric or underscore. -/
def validSimpleName (s : Str) : Bool :=
  match s with
  | [] => false
  | c :: rest => (c.isAlpha || c = '_') && rest.all (fun c => c.isAlphanum || c = '_')

/-- Modelled from the spec: apache_avro Name::new is an external
collaborator (the schema object model is out of scope per the spec).
It splits a dotted fullname at the last dot into namespace and simple
name (bare simple name when no dot) and rejects an invalid simple
name. -/
def nameNew (s : Str) : Except Str AName :=
  if s.contains '.' then
    let simple := (s.reverse.takeWhile (fun c => c ≠ '.')).reverse
    let nsPart := s.take (s.length - simple.length - 1)
    if validSimpleName simple then .ok ⟨simple, some nsPart⟩
    else .error (s2l ("invalid name"))
  else
    if validSimpleName s then .ok ⟨s, none⟩
    else .error (s2l ("invalid name"))

/-- Modelled from the spec: apache_avro fully_qualified_name keeps an
explicit namespace and otherwise adopts the enclosing one; identity for
lookup purposes is the fully-qualified form. -/
def fullyQualifiedName (n : AName) (encl : Option Str) : AName :=
  { name := n.name,
    ns := match n.ns with
          | some x => some x
          | none => encl }

/-- serde_json Value, with float numbers carried as their source token
(numTok): IEEE semantics are outside the model. -/
inductive JsonValue where
  | null
  | bool (b : Bool)
  | num (n : Int)
  | numTok (tok : Str)
  | str (s : Str)
  | arr (xs : List JsonValue)
  | obj (kvs : List (Str × JsonValue))
deriving Repr

/-- apache_avro types::Value, restricted to the constructors produced
by the default-value parsers.  Double carries the source token. -/
inductive AvroValue where
  | Null
  | Boolean (b : Bool)
  | Int (n : Int)
  | Long (n : Int)
  | Double (tok : Str)
  | Str (s : Str)
  | Bytes (bs : List Nat)
  | DecimalV (bs : List Nat)
  | UuidV (s : Str)
  | ArrayV (xs : List AvroValue)
  | MapV (kvs : List (Str × AvroValue))
deriving Repr

mutual
/-- apache_avro Schema, restricted to the variants reachable from the
parser.  MapS is the map schema (Map clashes with the combinator
vocabulary). -/
inductive Schema where
  | Null
  | Boolean
  | Int
  | Long
  | Float
  | Double
  | Bytes
  | String
  | Date
  | TimeMillis
  | TimestampMillis
  | TimeMicros
  | TimestampMicros
  | Duration
  | Uuid
  | Decimal (precision : Nat) (scale : Nat) (inner : Schema)
  | Array (items : Schema)
  | MapS (values : Schema)
  | Union (variants : List Schema)
  | Enum (name : AName) (aliases : Option (List AName)) (doc : Option Str)
         (symbols : List Str) (default : Option Str)
  | Fixed (name : AName) (aliases : Option (List AName)) (doc : Option Str) (size : Nat)
  | Record (name : AName) (aliases : Option (List AName)) (doc : Option Str)
           (fields : List RecordField)
  | Ref (name : AName)

/-- apache_avro RecordField (custom_attributes omitted, always empty). -/
inductive RecordField where
  | mk (name : Str) (doc : Option Str) (default : Option JsonValue) (schema : Schema)
       (order : RecordFieldOrder) (aliases : Option (List Str)) (position : Nat)
end

/-- Field name accessor. -/
def RecordField.name : RecordField → Str
  | .mk n _ _ _ _ _ _ => n

/-- Field schema accessor. -/
def RecordField.schema : RecordField → Schema
  | .mk _ _ _ s _ _ _ => s

/-- Field position accessor. -/
def RecordField.position : RecordField → Nat
  | .mk _ _ _ _ _ _ p => p

/-- Replace the schema of a field (models field.schema = s). -/
def RecordField.setSchema : RecordField → Schema → RecordField
  | .mk n d df _ o a p, s => .mk n d df s o a p

/-- Discriminant used for the union duplicate check (apache_avro
SchemaKind). -/
def schemaKindTag : Schema → Nat
  | .Null => 0
  | .Boolean => 1
  | .Int => 2
  | .Long => 3
  | .Float => 4
  | .Double => 5
  | .Bytes => 6
  | .String => 7
  | .Date => 8
  | .TimeMillis => 9
  | .TimestampMillis => 10
  | .TimeMicros => 11
  | .TimestampMicros => 12
  | .Duration => 13
  | .Uuid => 14
  | .Decimal _ _ _ => 15
  | .Array _ => 16
  | .MapS _ => 17
  | .Union _ => 18
  | .Enum _ _ _ _ _ => 19
  | .Fixed _ _ _ _ => 20
  | .Record _ _ _ _ => 21
  | .Ref _ => 22

/-- Modelled from the spec: apache_avro UnionSchema::new is an external
collaborator.  Per the spec a union is an ordered list of distinct-shape
members; the crate rejects a direct nested union and two members of the
same kind. -/
def unionSchemaNew (variants : List Schema) : Except Str (List Schema) :=
  if variants.any (fun s => schemaKindTag s = 18) then
    .error (s2l ("nested union"))
  else if (variants.map schemaKindTag).Nodup then .ok variants
  else .error (s2l ("duplicate type in union"))

instance : DecidablePred (fun s : Schema => schemaKindTag s = 18) :=
  fun s => inferInstanceAs (Decidable (schemaKindTag s = 18))

mutual
/-- Modelled from the spec: the conversion from apache_avro Value to a
serde_json default value (TryFrom in the external model crate).  Bytes
and decimal become arrays of byte numbers, matching the behavior the
parser tests rely on. -/
def avroValueTryInto : AvroValue → Except Str JsonValue
  | .Null => .ok .null
  | .Boolean b => .ok (.bool b)
  | .Int n => .ok (.num n)
  | .Long n => .ok (.num n)
  | .Double tok => .ok (.numTok tok)
  | .Str s => .ok (.str s)
  | .Bytes bs => .ok (.arr (bs.map (fun b => .num b)))
  | .DecimalV bs => .ok (.arr (bs.map (fun b => .num b)))
  | .UuidV s => .ok (.str s)
  | .ArrayV xs =>
      match avroValuesTryInto xs with
      | .ok ys => .ok (.arr ys)
      | .error e => .error e
  | .MapV kvs =>
      match avroKvsTryInto kvs with
      | .ok ys => .ok (.obj ys)
      | .error e => .error e

def avroValuesTryInto : List AvroValue → Except Str (List JsonValue)
  | [] => .ok []
  | v :: vs =>
      match avroValueTryInto v, avroValuesTryInto vs with
      | .ok w, .ok ws => .ok (w :: ws)
      | .error e, _ => .error e
      | _, .error e => .error e

def avroKvsTryInto : List (Str × AvroValue) → Except Str (List (Str × JsonValue))
  | [] => .ok []
  | (k, v) :: vs =>
      match avroValueTryInto v, avroKvsTryInto vs with
      | .ok w, .ok ws => .ok ((k, w) :: ws)
      | .error e, _ => .error e
      | _, .error e => .error e
end

/-- The symbol table (Rust HashMap from Name to Schema), as an
association list in insertion order. -/
abbrev Table := List (AName × Schema)

/-- HashMap contains_key. -/
def tableContains (t : Table) (n : AName) : Bool :=
  t.any (fun kv => kv.fst = n)

/-- HashMap get. -/
def tableGet (t : Table) (n : AName) : Option Schema :=
  match t.find? (fun kv => kv.fst = n) with
  | some kv => some kv.snd
  | none => none

/-- HashMap insert (the parser checks contains_key first, so plain
extension suffices). -/
def tableInsert (t : Table) (n : AName) (s : Schema) : Table :=
  t ++ [(n, s)]

end Avdl

namespace Avdl

/-! ## The parser, translated from crates/avdl-parser/src/parser.rs

Looping parsers carry an explicit fuel argument (nom loops natively);
the top-level entry points instantiate fuel with one more than the
input length, which every reachable loop respects since each iteration
consumes at least one character. -/

/-- Modelled from the spec: crate string_parser parse_string (the
string-literal unescaper) is an external collaborator not under src.
Per the spec it takes a double-quoted token and returns the unescaped
text, failing on malformed or unterminated input.  Escapes are
modelled as backslash followed by a character. -/
def parse_string_uni : P Str := fun inp =>
  match inp with
  | '"' :: rest => go rest []
  | _ => .err
where
  unescape (c : Char) : Char :=
    if c = 'n' then '\n' else if c = 't' then '\t' else c
  go : Str → Str → PRes Str
  | [], _ => .err
  | '"' :: rest, acc => .ok rest acc.reverse
  | '\\' :: [], _ => .err
  | '\\' :: c :: rest, acc => go rest (unescape c :: acc)
  | c :: rest, acc => go rest (c :: acc)

/-- Rust source parse_comment. -/
def parse_comment : P Str :=
  palt2
    (pdelimited (ptag (s2l ("/*"))) (ptakeUntil (s2l ("*/"))) (ptag (s2l ("*/"))))
    (pdelimited (ptag (s2l ("//"))) (ptakeTill (fun c => c = '\n')) (ptag (s2l ("\n"))))

/-- Rust source space_delimited. -/
def space_delimited (p : P α) : P α := pdelimited multispace0 p multispace0

/-- Rust source space_or_comment_delimited. -/
def space_or_comment_delimited (p : P α) : P α :=
  pdelimited (space_delimited (popt parse_comment)) p (space_delimited (popt parse_comment))

/-- Rust str trim over the ASCII whitespace fragment. -/
def trimChars (s : Str) : Str :=
  ((s.dropWhile isMultispace).reverse.dropWhile isMultispace).reverse

/-- Rust source parse_doc. -/
def parse_doc : P Str :=
  pdelimited (ptag (s2l ("/**")))
    (pmap trimChars (ptakeUntil (s2l ("*/"))))
    (ptag (s2l ("*/")))

/-- Rust source parse_var_name. -/
def parse_var_name : P Str :=
  pverify (ptakeWhile (fun c => c.isAlphanum || c = '_'))
    (fun s => (s.take 1).any (fun c => c.isAlpha || c = '_'))

/-- Rust source parse_namespace_value. -/
def parse_namespace_value : P Str :=
  pdelimited (pchar '"')
    (ptakeWhile (fun c => c.isAlphanum || c = '.' || c = '_'))
    (pchar '"')

/-- Rust source parse_aliases. -/
def parse_aliases (fuel : Nat) : P (List Str) :=
  ppreceded (ptag (s2l ("@aliases")))
    (pdelimited (space_or_comment_delimited (ptag (s2l ("("))))
      (pdelimited (ptag (s2l ("[")))
        (psepList1 fuel (ptag (s2l (","))) (space_or_comment_delimited parse_namespace_value))
        (space_or_comment_delimited (ptag (s2l ("]")))))
      (space_or_comment_delimited (ptag (s2l (")")))))

/-- Rust source parse_namespaced_aliases (Alias::new is nameNew). -/
def parse_namespaced_aliases (fuel : Nat) : P (List AName) :=
  ppreceded (ptag (s2l ("@aliases")))
    (pdelimited (space_or_comment_delimited (ptag (s2l ("("))))
      (pdelimited (ptag (s2l ("[")))
        (psepList1 fuel (ptag (s2l (",")))
          (space_or_comment_delimited (pmapRes parse_namespace_value nameNew)))
        (space_or_comment_delimited (ptag (s2l ("]")))))
      (space_or_comment_delimited (ptag (s2l (")")))))

/-- Rust source parse_logical_type: the match on the quoted tag maps
the three recognized tags and hits todo (a panic) on any other tag. -/
def parse_logical_type : P Schema :=
  ppreceded (ptag (s2l ("@logicalType")))
    (pdelimited (ptag (s2l ("(")))
      (pbind parse_string_uni (fun s => fun inp =>
        if s = s2l ("timestamp-micros") then .ok inp Schema.TimestampMicros
        else if s = s2l ("time-micros") then .ok inp Schema.TimeMicros
        else if s = s2l ("duration") then .ok inp Schema.Duration
        else .panicked))
      (space_or_comment_delimited (ptag (s2l (")")))))

/-- Rust source parse_namespace. -/
def parse_namespace : P Str :=
  ppreceded (ptag (s2l ("@namespace")))
    (pdelimited (space_delimited (ptag (s2l ("("))))
      parse_namespace_value
      (ppreceded multispace0 (ptag (s2l (")")))))

/-- Rust source parse_order. -/
def parse_order : P RecordFieldOrder :=
  ppreceded (ptag (s2l ("@order")))
    (pdelimited (space_delimited (ptag (s2l ("("))))
      (palt [pvalue .Ascending (ptag (s2l ("\"ascending\""))),
             pvalue .Descending (ptag (s2l ("\"descending\""))),
             pvalue .Ignore (ptag (s2l ("\"ignore\"")))])
      (ppreceded multispace0 (ptag (s2l (")")))))

/-- Rust source map_string. -/
def map_string : P AvroValue := pmap (fun v => AvroValue.Str v) parse_string_uni

/-- UUID textual validity (8-4-4-4-12 hexadecimal groups), modelling
the external uuid crate Uuid::from_str on the claim-relevant inputs. -/
def uuidValid (s : Str) : Bool :=
  match s.splitOn '-' with
  | [a, b, c, d, e] =>
      a.length = 8 && b.length = 4 && c.length = 4 && d.length = 4 && e.length = 12 &&
      (a ++ b ++ c ++ d ++ e).all (fun ch => ch.isDigit || ('a' ≤ ch && ch ≤ 'f') || ('A' ≤ ch && ch ≤ 'F'))
  | _ => false

/-- Rust source map_uuid. -/
def map_uuid : P AvroValue :=
  pmapRes parse_string_uni (fun v =>
    if uuidValid v then .ok (AvroValue.UuidV v) else .error (s2l ("not a valid uuid")))

/-- Vec from a string: byte values of the characters (ASCII model of
the UTF-8 byte expansion). -/
def strBytes (s : Str) : List Nat := s.map (fun c => c.toNat)

/-- Rust source map_bytes. -/
def map_bytes : P AvroValue := pmap (fun v => AvroValue.Bytes (strBytes v)) parse_string_uni

/-- Rust source map_decimal. -/
def map_decimal : P AvroValue := pmap (fun v => AvroValue.DecimalV (strBytes v)) parse_string_uni

/-- Rust source map_null. -/
def map_null : P AvroValue := pvalue .Null (ptag (s2l ("null")))

/-- Rust source map_bool. -/
def map_bool : P AvroValue :=
  pmap (fun v => AvroValue.Boolean v)
    (palt2 (pvalue true (ptag (s2l ("true")))) (pvalue false (ptag (s2l ("false")))))

/-- Digit-string to number. -/
def digitsToNat (s : Str) : Nat :=
  s.foldl (fun acc c => acc * 10 + (c.toNat - 48)) 0

/-- Rust source map_int: digit run parsed as i32, range error beyond
its width (digit1 admits no sign, so only the upper bound applies). -/
def map_int : P AvroValue :=
  pmapRes digit1 (fun v =>
    let n := digitsToNat v
    if n ≤ 2147483647 then .ok (AvroValue.Int (Int.ofNat n))
    else .error (s2l ("number too large for i32")))

/-- Rust source map_long: digit run parsed as i64. -/
def map_long : P AvroValue :=
  pmapRes digit1 (fun v =>
    let n := digitsToNat v
    if n ≤ 9223372036854775807 then .ok (AvroValue.Long (Int.ofNat n))
    else .error (s2l ("number too large for i64")))

/-- Rust source map_float: the token is carried through; the f32
overflow rejection is an IEEE property outside this model. -/
def map_float : P AvroValue :=
  pmap (fun v => AvroValue.Double v)
    (ptakeWhile1 (fun c => c.isDigit || c = '.' || c = 'e'))

/-- Rust source map_double: the token is carried through. -/
def map_double : P AvroValue :=
  pmap (fun v => AvroValue.Double v)
    (ptakeWhile1 (fun c => c.isDigit || c = '.' || c = 'e'))

/-- Rust source map_usize. -/
def map_usize : P Nat := pmapRes digit1 (fun v => .ok (digitsToNat v))

/-- Rust source map_type_to_schema.  The union arm calls
UnionSchema::new and expects (panics) on its error; the final arm turns
a bare identifier into a Ref. -/
def map_type_to_schema : Nat → P Schema
  | 0 => fun _ => .err
  | fuel + 1 =>
    palt [
      ppreceded (ptag (s2l ("array")))
        (pdelimited (ptag (s2l ("<")))
          (pmap (fun s => Schema.Array s) (map_type_to_schema fuel))
          (ptag (s2l (">")))),
      pbind
        (ppreceded (space_or_comment_delimited (ptag (s2l ("union"))))
          (pdelimited (space_delimited (ptag (s2l ("\x7b"))))
            (psepList1 (fuel + 1) (space_delimited (ptag (s2l (",")))) (map_type_to_schema fuel))
            (space_delimited (ptag (s2l ("\x7d"))))))
        (fun union_schemas => fun inp =>
          match unionSchemaNew union_schemas with
          | .ok vs => .ok inp (Schema.Union vs)
          | .error _ => .panicked),
      pvalue .Null (space_or_comment_delimited (ptag (s2l ("null")))),
      pvalue .Boolean (space_or_comment_delimited (ptag (s2l ("boolean")))),
      pvalue .String (space_or_comment_delimited (ptag (s2l ("string")))),
      pvalue .Int (space_or_comment_delimited (ptag (s2l ("int")))),
      pvalue .Double (space_or_comment_delimited (ptag (s2l ("double")))),
      pvalue .Float (space_or_comment_delimited (ptag (s2l ("float")))),
      pvalue .Long (space_or_comment_delimited (ptag (s2l ("long")))),
      pvalue .Bytes (space_or_comment_delimited (ptag (s2l ("bytes")))),
      pvalue .TimeMillis (space_or_comment_delimited (ptag (s2l ("time_ms")))),
      pvalue .TimestampMillis (space_or_comment_delimited (ptag (s2l ("timestamp_ms")))),
      pvalue .Date (space_or_comment_delimited (ptag (s2l ("date")))),
      pvalue .Uuid (space_or_comment_delimited (ptag (s2l ("uuid")))),
      pmap (fun ps => Schema.Decimal ps.1 ps.2 Schema.Bytes)
        (ppreceded (space_or_comment_delimited (ptag (s2l ("decimal"))))
          (pdelimited (ptag (s2l ("(")))
            (ppair (pterminated map_usize (space_delimited (ptag (s2l (","))))) map_usize)
            (ptag (s2l (")"))))),
      pmapRes (space_or_comment_delimited parse_var_name)
        (fun reference_name =>
          match nameNew reference_name with
          | .ok n => .ok (Schema.Ref n)
          | .error _ => .error (s2l ("Invalid reference name")))
    ]

/-- Rust source parse_enum_item. -/
def parse_enum_item : P Str := space_or_comment_delimited parse_var_name

/-- Rust source parse_enum_default_symbol. -/
def parse_enum_default_symbol : P AvroValue :=
  pmap (fun v => AvroValue.Str v) parse_enum_item

/-- Rust source parse_based_on_schema: type-directed choice of the
default-value literal parser.  The union arm recurses into the first
variant only (first() expect panics on an empty union); Duration is a
todo panic; the remaining schemas (map, named types) hit the
unimplemented arm, also a panic. -/
def parse_based_on_schema (fuel : Nat) : Schema → P AvroValue
  | .Null => map_null
  | .Boolean => map_bool
  | .Int => map_int
  | .Long => map_long
  | .Float => map_float
  | .Double => map_double
  | .Bytes => map_bytes
  | .String => map_string
  | .Array schema =>
      pdelimited (ptag (s2l ("[")))
        (pmap (fun s => AvroValue.ArrayV s)
          (psepList0 fuel (ptag (s2l (","))) (parse_based_on_schema fuel schema)))
        (ptag (s2l ("]")))
  | .Union variants =>
      match variants with
      | [] => fun _ => .panicked
      | s :: _ => parse_based_on_schema fuel s
  | .Date => map_int
  | .TimeMillis => map_int
  | .TimestampMillis => map_long
  | .Uuid => map_uuid
  | .Decimal _ _ _ => map_decimal
  | .TimestampMicros => map_long
  | .TimeMicros => map_long
  | .Duration => fun _ => .panicked
  | .Ref _ => parse_enum_default_symbol
  | _ => fun _ => .panicked

/-- The six-component result of the four field-shape parsers:
(schema, doc, order, aliases, name, default). -/
abbrev FieldTuple :=
  Schema × Option Str × Option RecordFieldOrder × Option (List Str) × Str × Option JsonValue

/-- Rust source parse_field. -/
def parse_field (fuel : Nat) : P FieldTuple := do
  let doc ← popt parse_doc
  let logical_schema ← popt (space_or_comment_delimited parse_logical_type)
  let schema0 ← map_type_to_schema fuel
  let schema := match logical_schema with
                | some s => s
                | none => schema0
  let x ← pterminated
      (do
        let oa ← permutationOpt2 (space_or_comment_delimited parse_order)
                   (space_or_comment_delimited (parse_aliases fuel))
        let varname ← space_or_comment_delimited parse_var_name
        let defaults ← popt (ppreceded (space_or_comment_delimited (ptag (s2l ("="))))
                        (pmapRes (parse_based_on_schema fuel schema) avroValueTryInto))
        pure (oa, varname, defaults))
      (ppreceded space0 (space_or_comment_delimited (ptag (s2l (";")))))
  pure (schema, doc, x.1.1, x.1.2, x.2.1, x.2.2)

/-- Rust source parse_array. -/
def parse_array (fuel : Nat) : P FieldTuple := do
  let doc ← popt parse_doc
  let schema_array_type ← ppreceded (space_or_comment_delimited (ptag (s2l ("array"))))
      (pdelimited (ptag (s2l ("<"))) (map_type_to_schema fuel) (ptag (s2l (">"))))
  let x ← pterminated
      (do
        let oa ← permutationOpt2 (space_or_comment_delimited parse_order)
                   (space_or_comment_delimited (parse_aliases fuel))
        let varname ← space_delimited parse_var_name
        let defaults ← popt (ppreceded (space_delimited (ptag (s2l ("="))))
            (pdelimited (ptag (s2l ("[")))
              (pmapRes (psepList0 fuel (ptag (s2l (",")))
                         (parse_based_on_schema fuel schema_array_type))
                (fun vs => avroValueTryInto (AvroValue.ArrayV vs)))
              (ptag (s2l ("]")))))
        pure (oa, varname, defaults))
      (ptag (s2l (";")))
  pure (Schema.Array schema_array_type, doc, x.1.1, x.1.2, x.2.1, x.2.2)

/-- Rust HashMap from_iter over key-value pairs: later keys overwrite
earlier ones (iteration order modelled as insertion order). -/
def hashMapFromIter (kvs : List (Str × AvroValue)) : List (Str × AvroValue) :=
  kvs.foldl (fun acc kv => (acc.filter (fun e => e.fst ≠ kv.fst)) ++ [kv]) []

/-- Rust source parse_map. -/
def parse_map (fuel : Nat) : P FieldTuple := do
  let doc ← popt parse_doc
  let schema ← ppreceded (space_or_comment_delimited (ptag (s2l ("map"))))
      (pdelimited (ptag (s2l ("<"))) (map_type_to_schema fuel) (ptag (s2l (">"))))
  let x ← pterminated
      (do
        let oa ← permutationOpt2 (space_or_comment_delimited parse_order)
                   (space_or_comment_delimited (parse_aliases fuel))
        let varname ← space_delimited parse_var_name
        let defaults ← popt (ppreceded (space_delimited (ptag (s2l ("="))))
            (pdelimited (ptag (s2l ("\x7b")))
              (pmapRes (psepList0 fuel (space_delimited (ptag (s2l (","))))
                         (ppair parse_string_uni
                           (ppreceded (space_delimited (ptag (s2l (":"))))
                             (parse_based_on_schema fuel schema))))
                (fun v => avroValueTryInto (AvroValue.MapV (hashMapFromIter v))))
              (ptag (s2l ("\x7d")))))
        pure (oa, varname, defaults))
      (ptag (s2l (";")))
  pure (Schema.MapS schema, doc, x.1.1, x.1.2, x.2.1, x.2.2)

/-- Rust source parse_union. -/
def parse_union (fuel : Nat) : P FieldTuple := do
  let doc ← popt parse_doc
  let schema ← map_type_to_schema fuel
  let x ← pterminated
      (do
        let oa ← permutationOpt2 (space_or_comment_delimited parse_order)
                   (space_or_comment_delimited (parse_aliases fuel))
        let varname ← space_or_comment_delimited parse_var_name
        let defaults ← popt (ppreceded (space_or_comment_delimited (ptag (s2l ("="))))
                        (pmapRes (parse_based_on_schema fuel schema) avroValueTryInto))
        pure (oa, varname, defaults))
      (ppreceded space0 (space_or_comment_delimited (ptag (s2l (";")))))
  pure (schema, doc, x.1.1, x.1.2, x.2.1, x.2.2)

/-- Rust source parse_enum_symbols. -/
def parse_enum_symbols (fuel : Nat) : P (List Str) :=
  pdelimited (space_or_comment_delimited (ptag (s2l ("\x7b"))))
    (psepList1 fuel (ptag (s2l (","))) parse_enum_item)
    (space_or_comment_delimited (ptag (s2l ("\x7d"))))

/-- Rust source parse_enum_name. -/
def parse_enum_name : P Str :=
  space_delimited (ppreceded (space_delimited (ptag (s2l ("enum")))) parse_enum_item)

/-- Rust source parse_enum_default. -/
def parse_enum_default : P Str :=
  pterminated (ppreceded (space_delimited (ptag (s2l ("=")))) parse_enum_item)
    (ptag (s2l (";")))

/-- Rust source parse_enum (Name::new unwrap panics on error). -/
def parse_enum (fuel : Nat) : P Schema := do
  let doc ← popt parse_doc
  let aliases ← popt (parse_namespaced_aliases fuel)
  let name ← parse_enum_name
  let body ← parse_enum_symbols fuel
  let default ← popt parse_enum_default
  match nameNew name with
  | .ok n => pure (Schema.Enum n aliases doc body default)
  | .error _ => fun _ => .panicked

/-- Rust source parse_fixed (the name conversion panics on error; cut
turns errors after the fixed keyword into failures). -/
def parse_fixed (fuel : Nat) : P Schema := do
  let doc ← space_delimited (popt parse_doc)
  let x ← ppreceded (ptag (s2l ("fixed")))
      (pcut (pterminated
        (space_delimited (do
          let aliases ← popt (space_delimited (parse_namespaced_aliases fuel))
          let name ← parse_var_name
          let size ← pdelimited (ptag (s2l ("("))) map_usize (ptag (s2l (")")))
          pure (aliases, name, size)))
        (pchar ';')))
  match nameNew x.2.1 with
  | .ok n => pure (Schema.Fixed n x.1 doc x.2.2)
  | .error _ => fun _ => .panicked

/-- Rust source parse_record_name. -/
def parse_record_name : P Str :=
  ppreceded (space_or_comment_delimited (ptag (s2l ("record"))))
    (space_or_comment_delimited parse_var_name)

/-- Shared RecordField construction of the four identical closures in
parse_record_field: order defaults to Ascending, position is 0. -/
def mkRecordField (t : FieldTuple) : RecordField :=
  .mk t.2.2.2.2.1 t.2.1 t.2.2.2.2.2 t.1
    (match t.2.2.1 with
     | some o => o
     | none => .Ascending)
    t.2.2.2.1 0

/-- Rust source parse_record_field. -/
def parse_record_field (fuel : Nat) : P RecordField :=
  ppreceded multispace0
    (space_or_comment_delimited (palt [
       pmap mkRecordField (parse_array fuel),
       pmap mkRecordField (parse_map fuel),
       pmap mkRecordField (parse_union fuel),
       pmap mkRecordField (parse_field fuel)]))

/-- The field-collection loop of parse_record: nom many1 over map_res
of parse_record_field and the duplicate-name check against the
used_field_names vector, threaded explicitly. -/
def collect_record_fields : Nat → List Str → List RecordField → P (List RecordField) :=
  fun fuel used acc inp =>
    match fuel with
    | 0 => .err
    | fuel + 1 =>
      match parse_record_field fuel inp with
      | .fatal => .fatal
      | .panicked => .panicked
      | .err => if acc.isEmpty then .err else .ok inp acc
      | .ok rest f =>
          if used.contains f.name then
            (if acc.isEmpty then .err else .ok inp acc)
          else collect_record_fields fuel (used ++ [f.name]) (acc ++ [f]) rest

/-- The same loop without the duplicate-name check (plain nom many1 of
parse_record_field); used to state that the check is the only way a
record with all-distinct field names can be treated differently. -/
def collect_record_fields_nocheck : Nat → List RecordField → P (List RecordField) :=
  fun fuel acc inp =>
    match fuel with
    | 0 => .err
    | fuel + 1 =>
      match parse_record_field fuel inp with
      | .fatal => .fatal
      | .panicked => .panicked
      | .err => if acc.isEmpty then .err else .ok inp acc
      | .ok rest f => collect_record_fields_nocheck fuel (acc ++ [f]) rest

/-- Rust source parse_record (Name::new unwrap panics on error; the
parsed name namespace is then overwritten with the optional namespace
annotation). -/
def parse_record (fuel : Nat) : P Schema := do
  let doc ← popt parse_doc
  let an ← permutationOpt2 (space_or_comment_delimited (parse_namespaced_aliases fuel))
             (space_or_comment_delimited parse_namespace)
  let name ← parse_record_name
  let fields ← ppreceded multispace0
      (pdelimited (ptag (s2l ("\x7b")))
        (collect_record_fields fuel [] [])
        (ppreceded multispace0 (ptag (s2l ("\x7d")))))
  match nameNew name with
  | .ok n => pure (Schema.Record { n with ns := an.2 } an.1 doc fields)
  | .error _ => fun _ => .panicked

/-- The name under which a declaration is registered in the symbol
table (the name-extracting match of parse_protocol); none corresponds
to the todo (panic) arm. -/
def declName : Schema → Option AName
  | .Record name _ _ _ => some name
  | .Fixed name _ _ _ => some name
  | .Enum name _ _ _ _ => some name
  | .Ref name => some name
  | _ => none

/-- The declaration loop of parse_protocol: nom many1 over map_res of
alt(record, enum, fixed) with the duplicate fully-registered-name
check and symbol-table insertion, threaded explicitly. -/
def parse_decls : Nat → Table → List Schema → P (List Schema × Table) :=
  fun fuel names acc inp =>
    match fuel with
    | 0 => .err
    | fuel + 1 =>
      match (space_or_comment_delimited
              (palt [parse_record fuel, parse_enum fuel, parse_fixed fuel])) inp with
      | .fatal => .fatal
      | .panicked => .panicked
      | .err => if acc.isEmpty then .err else .ok inp (acc, names)
      | .ok rest schema =>
          match declName schema with
          | some name =>
              if tableContains names name then
                (if acc.isEmpty then .err else .ok inp (acc, names))
              else parse_decls fuel (tableInsert names name schema) (acc ++ [schema]) rest
          | none => .panicked

/-- Rust source parse_protocol, with the mutable symbol table made an
explicit argument and result. -/
def parse_protocol (fuel : Nat) (names : Table) : P (List Schema × Option Str × Table) := do
  let _doc ← popt parse_doc
  let nsOpt ← space_or_comment_delimited (popt parse_namespace)
  let _name ← ppreceded multispace0
      (ppreceded (space_or_comment_delimited (ptag (s2l ("protocol"))))
        (space_delimited parse_var_name))
  let st ← pdelimited (space_delimited (ptag (s2l ("\x7b"))))
      (parse_decls fuel names [])
      (ppreceded multispace0 (ptag (s2l ("\x7d")))) 
  pure (st.1, nsOpt, st.2)

/-- Rust source Operation. -/
inductive Operation where
  | NoOp
  | Swap (s : Schema)

mutual
/-- Rust source schema_solver.  The in-place mutation of the subject is
modelled by returning the updated schema next to the Result; on an
error inside a record, the fields already visited keep their updates
and the remaining ones are untouched, exactly as the mutable traversal
leaves them. -/
def schema_solver (names : Table) (encl : Option Str) : Schema → Except Str Operation × Schema
  | .Record name aliases doc fields =>
      let fqn := fullyQualifiedName name encl
      let record_namespace := fqn.ns
      (match solve_fields names record_namespace fields with
       | (.ok _, fields2) => (.ok .NoOp, .Record name aliases doc fields2)
       | (.error e, fields2) => (.error e, .Record name aliases doc fields2))
  | .Ref name =>
      let fqn := fullyQualifiedName name encl
      (match tableGet names fqn with
       | some found => (.ok (.Swap found), .Ref name)
       | none => (.error (s2l ("Failed to solve schema")), .Ref name))
  | s => (.ok .NoOp, s)

/-- The field loop inside the record arm of schema_solver. -/
def solve_fields (names : Table) (ns : Option Str) :
    List RecordField → Except Str Unit × List RecordField
  | [] => (.ok (), [])
  | .mk n d df s o a p :: fs =>
      match schema_solver names ns s with
      | (.error e, s2) => (.error e, .mk n d df s2 o a p :: fs)
      | (.ok op, s2) =>
          let fschema := match op with
                         | .Swap snew => snew
                         | .NoOp => s2
          (match solve_fields names ns fs with
           | (res, fs2) => (res, .mk n d df fschema o a p :: fs2))
end

/-- Rust source namespace_solver: sets the namespace of a root Record
and leaves every other schema untouched; it does not recurse. -/
def namespace_solver (encl : Option Str) : Schema → Schema
  | .Record name aliases doc fields => .Record { name with ns := encl } aliases doc fields
  | s => s

/-- Rust source parse: the top-level entry point.  Note the source
discards the Result of schema_solver (let underscore binding), so a
resolution error leaves the partially updated schema in the output
and the function still succeeds, always reporting an empty remainder. -/
def parse (inp : Str) : PRes (List Schema) :=
  let fuel := inp.length + 1
  match parse_protocol fuel [] inp with
  | .ok _tail (schemas, nsOpt, names) =>
      .ok [] (schemas.map (fun s =>
        let s2 := (schema_solver names none s).2
        namespace_solver nsOpt s2))
  | .err => .err
  | .fatal => .fatal
  | .panicked => .panicked

end Avdl

namespace Avdl

/-! ## Derived observers and concrete claim inputs -/

mutual
/-- Whether a Ref node occurs anywhere in a schema tree. -/
def schemaContainsRef : Schema → Bool
  | .Ref _ => true
  | .Array s => schemaContainsRef s
  | .MapS s => schemaContainsRef s
  | .Decimal _ _ s => schemaContainsRef s
  | .Union vs => schemasContainRef vs
  | .Record _ _ _ fs => fieldsContainRef fs
  | _ => false

def schemasContainRef : List Schema → Bool
  | [] => false
  | s :: ss => schemaContainsRef s || schemasContainRef ss

def fieldsContainRef : List RecordField → Bool
  | [] => false
  | .mk _ _ _ s _ _ _ :: fs => schemaContainsRef s || fieldsContainRef fs
end

/-- The fields of a record schema (empty for any other schema). -/
def recordFields : Schema → List RecordField
  | .Record _ _ _ fs => fs
  | _ => []

/-- The namespace stored at the root of a schema when it is a Record. -/
def rootRecordNs : Schema → Option (Option Str)
  | .Record n _ _ _ => some n.ns
  | _ => none

/-- The namespace of the record stored as the schema of the first
field of a record (the nested-record observer). -/
def firstFieldRecordNs : Schema → Option (Option Str)
  | .Record _ _ _ (f :: _) => rootRecordNs f.schema
  | _ => none

/-- Claim C1 input: a protocol whose body holds a reference with no
matching declaration. -/
def c1_input : Str := s2l ("protocol P \x7b record R \x7b Missing f; \x7d \x7d")

/-- The record declaration of c1_input as parsed (and as returned: the
resolution error leaves it untouched). -/
def c1_record : Schema :=
  .Record ⟨s2l ("R"), none⟩ none none
    [.mk (s2l ("f")) none none (.Ref ⟨s2l ("Missing"), none⟩) .Ascending none 0]

/-- The symbol table produced while parsing c1_input. -/
def c1_table : Table := [(⟨s2l ("R"), none⟩, c1_record)]

/-- Claim C2 input: a reference nested inside an array element type. -/
def c2_input : Str :=
  s2l ("protocol P \x7b record Hello \x7b string name; \x7d record Parent \x7b array<Hello> kids; \x7d \x7d")

def c2_hello : Schema :=
  .Record ⟨s2l ("Hello"), none⟩ none none
    [.mk (s2l ("name")) none none .String .Ascending none 0]

def c2_parent : Schema :=
  .Record ⟨s2l ("Parent"), none⟩ none none
    [.mk (s2l ("kids")) none none (.Array (.Ref ⟨s2l ("Hello"), none⟩)) .Ascending none 0]

/-- Claim C3 input: a record with two fields. -/
def c3_input : Str := s2l ("record R \x7b string a; int b; \x7d")

def c3_record : Schema :=
  .Record ⟨s2l ("R"), none⟩ none none
    [.mk (s2l ("a")) none none .String .Ascending none 0,
     .mk (s2l ("b")) none none .Int .Ascending none 0]

/-- Claim C5 input: the record-of-record protocol from the claim. -/
def c5_input : Str :=
  s2l ("protocol P \x7b record Hello \x7b string name; \x7d record Parent \x7b Hello santi; \x7d \x7d")

def c5_hello : Schema :=
  .Record ⟨s2l ("Hello"), none⟩ none none
    [.mk (s2l ("name")) none none .String .Ascending none 0]

def c5_parent : Schema :=
  .Record ⟨s2l ("Parent"), none⟩ none none
    [.mk (s2l ("santi")) none none c5_hello .Ascending none 0]

/-- Claim C6 inputs: union fields whose default is checked against the
first branch only. -/
def c6_ok_input : Str := s2l ("union \x7b null, string \x7d item_id = null;")

def c6_bad_input : Str := s2l ("union \x7b int, string \x7d item = \"no\";")

/-- Claim C7 inputs: records with duplicate and with distinct field
names, and the record body on which the field loop runs. -/
def c7_dup_input : Str := s2l ("record Hello \x7b string name; int name; \x7d")

def c7_dup_body : Str := s2l (" string name; int name; \x7d")

def c7_dup_fields : List RecordField :=
  [.mk (s2l ("name")) none none .String .Ascending none 0,
   .mk (s2l ("name")) none none .Int .Ascending none 0]

def c7_ok_input : Str := s2l ("record Hello \x7b string name; int age; \x7d")

def c7_ok_body : Str := s2l (" string name; int age; \x7d")

def c7_ok_fields : List RecordField :=
  [.mk (s2l ("name")) none none .String .Ascending none 0,
   .mk (s2l ("age")) none none .Int .Ascending none 0]

def c7_ok_record : Schema :=
  .Record ⟨s2l ("Hello"), none⟩ none none c7_ok_fields

/-- Claim C9 input: the record-of-record protocol under an explicit
protocol namespace. -/
def c9_input : Str :=
  s2l ("@namespace(\"ns.x\") protocol P \x7b record Hello \x7b string name; \x7d record Parent \x7b Hello santi; \x7d \x7d")

def c9_hello_out : Schema :=
  .Record ⟨s2l ("Hello"), some (s2l ("ns.x"))⟩ none none
    [.mk (s2l ("name")) none none .String .Ascending none 0]

def c9_parent_out : Schema :=
  .Record ⟨s2l ("Parent"), some (s2l ("ns.x"))⟩ none none
    [.mk (s2l ("santi")) none none
      (.Record ⟨s2l ("Hello"), none⟩ none none
        [.mk (s2l ("name")) none none .String .Ascending none 0])
      .Ascending none 0]

/-- Claim C10 input: a valid protocol followed by trailing text. -/
def c10_input : Str :=
  s2l ("protocol P \x7b record R \x7b string a; \x7d \x7d trailing garbage @@@")

def c10_record : Schema :=
  .Record ⟨s2l ("R"), none⟩ none none
    [.mk (s2l ("a")) none none .String .Ascending none 0]

end Avdl

namespace Avdl

/-! ## Helper lemmas -/

set_option maxRecDepth 40000

theorem P_bind_def (p : P α) (f : α → P β) : p >>= f = pbind p f := rfl

theorem P_pure_def (v : α) : (pure v : P α) = ppure v := rfl

theorem pbind_ok {p : P α} {f : α → P β} {inp rest : Str} {v : β}
    (h : pbind p f inp = .ok rest v) :
    ∃ mid w, p inp = .ok mid w ∧ f w mid = .ok rest v := by
  unfold pbind at h
  cases hp : p inp with
  | ok mid w => rw [hp] at h; exact ⟨mid, w, rfl, h⟩
  | err => rw [hp] at h; cases h
  | fatal => rw [hp] at h; cases h
  | panicked => rw [hp] at h; cases h

theorem pmap_ok {g : α → β} {p : P α} {inp rest : Str} {v : β}
    (h : pmap g p inp = .ok rest v) :
    ∃ w, p inp = .ok rest w ∧ v = g w := by
  unfold pmap at h
  cases hp : p inp with
  | ok mid w =>
      rw [hp] at h
      cases h
      exact ⟨w, rfl, rfl⟩
  | err => rw [hp] at h; cases h
  | fatal => rw [hp] at h; cases h
  | panicked => rw [hp] at h; cases h

theorem palt2_ok {p q : P α} {inp rest : Str} {v : α}
    (h : palt2 p q inp = .ok rest v) :
    p inp = .ok rest v ∨ q inp = .ok rest v := by
  unfold palt2 at h
  cases hp : p inp with
  | ok mid w => rw [hp] at h; exact .inl h
  | err => rw [hp] at h; exact .inr h
  | fatal => rw [hp] at h; cases h
  | panicked => rw [hp] at h; cases h

theorem ppreceded_ok {p : P α} {q : P β} {inp rest : Str} {v : β}
    (h : ppreceded p q inp = .ok rest v) :
    ∃ mid, q mid = .ok rest v := by
  unfold ppreceded at h
  obtain ⟨mid, w, _, h2⟩ := pbind_ok h
  exact ⟨mid, h2⟩

theorem pdelimited_ok {l : P α} {p : P β} {r : P γ} {inp rest : Str} {v : β}
    (h : pdelimited l p r inp = .ok rest v) :
    ∃ i1 i2, p i1 = .ok i2 v := by
  unfold pdelimited at h
  obtain ⟨i1, w1, _, h2⟩ := pbind_ok h
  obtain ⟨i2, w2, h3, h4⟩ := pbind_ok h2
  obtain ⟨w3, _, hv⟩ := pmap_ok h4
  exact ⟨i1, i2, by rw [hv]; exact h3⟩

theorem mkRecordField_position (t : FieldTuple) : (mkRecordField t).position = 0 := rfl

theorem parse_record_field_pos0 {fuel : Nat} {inp rest : Str} {f : RecordField}
    (h : parse_record_field fuel inp = .ok rest f) : f.position = 0 := by
  unfold parse_record_field at h
  obtain ⟨i1, h⟩ := ppreceded_ok h
  unfold space_or_comment_delimited at h
  obtain ⟨i2, i3, h⟩ := pdelimited_ok h
  unfold palt at h
  rcases palt2_ok h with h | h
  · obtain ⟨w, _, hv⟩ := pmap_ok h; rw [hv]; exact mkRecordField_position w
  unfold palt at h
  rcases palt2_ok h with h | h
  · obtain ⟨w, _, hv⟩ := pmap_ok h; rw [hv]; exact mkRecordField_position w
  unfold palt at h
  rcases palt2_ok h with h | h
  · obtain ⟨w, _, hv⟩ := pmap_ok h; rw [hv]; exact mkRecordField_position w
  unfold palt at h
  rcases palt2_ok h with h | h
  · obtain ⟨w, _, hv⟩ := pmap_ok h; rw [hv]; exact mkRecordField_position w
  unfold palt at h
  cases h

theorem collect_fields_positions :
    ∀ (fuel : Nat) (used : List Str) (acc : List RecordField) (inp rest : Str)
      (fs : List RecordField),
    collect_record_fields fuel used acc inp = .ok rest fs →
    (∀ f ∈ acc, RecordField.position f = 0) →
    ∀ f ∈ fs, RecordField.position f = 0 := by
  intro fuel
  induction fuel with
  | zero =>
      intro used acc inp rest fs h hacc
      simp [collect_record_fields] at h
  | succ n ih =>
      intro used acc inp rest fs h hacc
      unfold collect_record_fields at h
      cases hf : parse_record_field n inp with
      | fatal => rw [hf] at h; cases h
      | panicked => rw [hf] at h; cases h
      | err =>
          rw [hf] at h
          by_cases he : acc.isEmpty
          · simp [he] at h
          · simp [he] at h
            obtain ⟨_, h2⟩ := h
            rw [← h2]
            exact hacc
      | ok rest1 f =>
          rw [hf] at h
          by_cases hc : f.name ∈ used
          · simp [hc] at h
            by_cases he : acc.isEmpty
            · simp [he] at h
            · simp [he] at h
              obtain ⟨_, h2⟩ := h
              rw [← h2]
              exact hacc
          · simp [hc] at h
            refine ih (used ++ [f.name]) (acc ++ [f]) rest1 rest fs h ?_
            intro g hg
            rcases List.mem_append.mp hg with hg | hg
            · exact hacc g hg
            · simp at hg
              rw [hg]
              exact parse_record_field_pos0 hf

theorem collect_fields_nodup :
    ∀ (fuel : Nat) (used : List Str) (acc : List RecordField) (inp rest : Str)
      (fs : List RecordField),
    collect_record_fields fuel used acc inp = .ok rest fs →
    (acc.map RecordField.name).Nodup →
    (∀ n ∈ acc.map RecordField.name, n ∈ used) →
    (fs.map RecordField.name).Nodup := by
  intro fuel
  induction fuel with
  | zero =>
      intro used acc inp rest fs h _ _
      simp [collect_record_fields] at h
  | succ n ih =>
      intro used acc inp rest fs h hnd hsub
      unfold collect_record_fields at h
      cases hf : parse_record_field n inp with
      | fatal => rw [hf] at h; cases h
      | panicked => rw [hf] at h; cases h
      | err =>
          rw [hf] at h
          by_cases he : acc.isEmpty
          · simp [he] at h
          · simp [he] at h
            rw [← h.2]
            exact hnd
      | ok rest1 f =>
          rw [hf] at h
          by_cases hc : f.name ∈ used
          · simp [hc] at h
            by_cases he : acc.isEmpty
            · simp [he] at h
            · simp [he] at h
              rw [← h.2]
              exact hnd
          · simp [hc] at h
            refine ih (used ++ [f.name]) (acc ++ [f]) rest1 rest fs h ?_ ?_
            · simp only [List.map_append, List.map_cons, List.map_nil]
              refine List.Nodup.append hnd (by simp) ?_
              intro a ha hb
              simp at hb
              rw [hb] at ha
              exact hc (hsub f.name ha)
            · intro m hm
              simp only [List.map_append, List.map_cons, List.map_nil] at hm
              rcases List.mem_append.mp hm with hm | hm
              · exact List.mem_append_left _ (hsub m hm)
              · simp at hm
                simp [hm]

theorem collect_nocheck_extends :
    ∀ (fuel : Nat) (acc : List RecordField) (inp rest : Str) (fs : List RecordField),
    collect_record_fields_nocheck fuel acc inp = .ok rest fs →
    ∃ nw, fs = acc ++ nw := by
  intro fuel
  induction fuel with
  | zero =>
      intro acc inp rest fs h
      simp [collect_record_fields_nocheck] at h
  | succ n ih =>
      intro acc inp rest fs h
      unfold collect_record_fields_nocheck at h
      cases hf : parse_record_field n inp with
      | fatal => rw [hf] at h; cases h
      | panicked => rw [hf] at h; cases h
      | err =>
          rw [hf] at h
          by_cases he : acc.isEmpty
          · simp [he] at h
          · simp [he] at h
            exact ⟨[], by rw [← h.2]; simp⟩
      | ok rest1 f =>
          rw [hf] at h
          obtain ⟨nw, hnw⟩ := ih (acc ++ [f]) rest1 rest fs h
          exact ⟨f :: nw, by rw [hnw]; simp⟩

theorem collect_eq_nocheck :
    ∀ (fuel : Nat) (used : List Str) (acc : List RecordField) (inp rest : Str)
      (fs nw : List RecordField),
    collect_record_fields_nocheck fuel acc inp = .ok rest fs →
    fs = acc ++ nw →
    (nw.map RecordField.name).Nodup →
    (∀ m ∈ nw.map RecordField.name, m ∉ used) →
    collect_record_fields fuel used acc inp = .ok rest fs := by
  intro fuel
  induction fuel with
  | zero =>
      intro used acc inp rest fs nw h _ _ _
      simp [collect_record_fields_nocheck] at h
  | succ n ih =>
      intro used acc inp rest fs nw h hfs hnd hdisj
      unfold collect_record_fields_nocheck at h
      unfold collect_record_fields
      cases hf : parse_record_field n inp with
      | fatal => rw [hf] at h; cases h
      | panicked => rw [hf] at h; cases h
      | err =>
          rw [hf] at h
          exact h
      | ok rest1 f =>
          rw [hf] at h
          obtain ⟨nw2, hnw2⟩ := collect_nocheck_extends n (acc ++ [f]) rest1 rest fs h
          have hnw : nw = f :: nw2 := by
            have : acc ++ nw = acc ++ ([f] ++ nw2) := by
              rw [← hfs, hnw2, List.append_assoc]
            simpa using List.append_cancel_left this
          have hfname : f.name ∉ used := by
            refine hdisj f.name ?_
            rw [hnw]
            simp
          have hcontains : used.contains f.name = false := by simpa using hfname
          dsimp only
          rw [hcontains]
          simp only [Bool.false_eq_true, if_false]
          refine ih (used ++ [f.name]) (acc ++ [f]) rest1 rest fs nw2 h ?_ ?_ ?_
          · rw [hfs, hnw]; simp
          · rw [hnw] at hnd
            simp at hnd
            exact hnd.2
          · intro m hm
            rw [hnw] at hnd hdisj
            simp at hnd
            intro hmem
            rcases List.mem_append.mp hmem with hmem | hmem
            · exact hdisj m (by simp [hm]) hmem
            · simp at hmem
              rw [hmem] at hm
              obtain ⟨b, hb, hbn⟩ := List.mem_map.mp hm
              exact hnd.1 b hb hbn

theorem parse_record_ok_inv {fuel : Nat} {inp rest : Str} {sc : Schema}
    (h : parse_record fuel inp = .ok rest sc) :
    ∃ (i1 i2 : Str), collect_record_fields fuel [] [] i1 = .ok i2 (recordFields sc) := by
  unfold parse_record at h
  simp only [P_bind_def, P_pure_def] at h
  obtain ⟨i1, doc, h1, h⟩ := pbind_ok h
  obtain ⟨i2, an, h2, h⟩ := pbind_ok h
  obtain ⟨i3, name, h3, h⟩ := pbind_ok h
  obtain ⟨i4, fields, h4, h⟩ := pbind_ok h
  obtain ⟨i5, h5⟩ := ppreceded_ok h4
  obtain ⟨i6, i7, h6⟩ := pdelimited_ok h5
  cases hn : nameNew name with
  | ok n =>
      rw [hn] at h
      unfold ppure at h
      cases h
      exact ⟨i6, i7, h6⟩
  | error e =>
      rw [hn] at h
      cases h

theorem ptakeWhile_split (p : Char → Bool) :
    ∀ (span rest : Str), (∀ c ∈ span, p c = true) →
    (∀ c cs, rest = c :: cs → p c = false) →
    ptakeWhile p (span ++ rest) = .ok rest span := by
  intro span
  induction span with
  | nil =>
      intro rest h1 h2
      unfold ptakeWhile
      cases rest with
      | nil => rfl
      | cons c cs =>
          simp [List.takeWhile_cons, List.dropWhile_cons, h2 c cs rfl]
  | cons a s ih =>
      intro rest h1 h2
      have hpa : p a = true := h1 a (by simp)
      have hih := ih rest (fun c hc => h1 c (by simp [hc])) h2
      unfold ptakeWhile at hih ⊢
      injection hih with hdrop htake
      simp only [List.cons_append, List.takeWhile_cons, List.dropWhile_cons, hpa,
        if_true]
      rw [hdrop, htake]

theorem digit_not_ident_start (c : Char) (h : c.isDigit = true) :
    (c.isAlpha || c = '_') = false := by
  simp only [Char.isDigit, Bool.and_eq_true, decide_eq_true_eq] at h
  obtain ⟨h1, h2⟩ := h
  have hv2 : c.val.toNat ≤ 57 := h2
  simp only [Char.isAlpha, Char.isUpper, Char.isLower, Bool.or_eq_false_iff,
    Bool.and_eq_false_iff, decide_eq_false_iff_not]
  refine ⟨⟨?_, ?_⟩, ?_⟩
  · left
    intro hle
    have hx : (65 : Nat) ≤ c.val.toNat := hle
    omega
  · left
    intro hle
    have hx : (97 : Nat) ≤ c.val.toNat := hle
    omega
  · intro he
    rw [he] at hv2
    exact absurd hv2 (by decide)

theorem digit_is_alphanum (c : Char) (h : c.isDigit = true) :
    (c.isAlphanum || c = '_') = true := by
  simp [Char.isAlphanum, h]

theorem ident_start_alphanum (c : Char) (h : (c.isAlpha || c = '_') = true) :
    (c.isAlphanum || c = '_') = true := by
  cases ha : c.isAlpha with
  | true => simp [Char.isAlphanum, ha]
  | false =>
      rw [ha] at h
      simp at h
      simp [h]

end Avdl

namespace Avdl

/-! ## Claim theorems -/

set_option maxRecDepth 100000

/-- Claim C1 (code bug exhibit): on a protocol whose body holds the
unresolvable reference Missing, the top-level parse nevertheless
succeeds and returns a schema list that still contains the Ref node,
while schema_solver itself reports the resolution error — parse
discards that error (the let-underscore binding) instead of
propagating it as the claim and the spec require. -/
theorem claim_C1_code_bug :
    parse c1_input = .ok [] [c1_record] ∧
    schemaContainsRef c1_record = true ∧
    (schema_solver c1_table none c1_record).1 = .error (s2l ("Failed to solve schema")) :=
  ⟨rfl, rfl, rfl⟩

/-- Claim C2 (code bug exhibit): the resolution pass does not recurse
into Array element schemas: after a fully successful top-level parse of
c2_input, the returned Parent record still contains a Ref node nested
inside the array, contradicting the claim that no Ref remains anywhere
after a successful parse. -/
theorem claim_C2_code_bug :
    parse c2_input = .ok [] [c2_hello, c2_parent] ∧
    schemaContainsRef c2_parent = true :=
  ⟨rfl, rfl⟩

/-- Claim C3 counterexample: in the parsed two-field record, the field
with index 1 has position 0, not 1 — positions are never assigned. -/
theorem claim_C3_counterexample :
    parse_record 100 c3_input = .ok [] c3_record ∧
    (recordFields c3_record).map RecordField.position = [0, 0] ∧
    ([0, 0] : List Nat) ≠ [0, 1] :=
  ⟨rfl, rfl, by decide⟩

/-- Claim C3 as amended: every field of every successfully parsed
record has position 0 (the parser constructs each RecordField with
position 0 and never reassigns it). -/
theorem claim_C3_amended :
    ∀ (fuel : Nat) (inp rest : Str) (sc : Schema),
    parse_record fuel inp = .ok rest sc →
    ∀ f ∈ recordFields sc, RecordField.position f = 0 := by
  intro fuel inp rest sc h
  obtain ⟨i1, i2, hc⟩ := parse_record_ok_inv h
  exact collect_fields_positions fuel [] [] i1 i2 (recordFields sc) hc (by simp)

/-- Witness for claim C3: the amended theorem applied to the concrete
two-field record. -/
theorem claim_C3_witness :
    RecordField.position (RecordField.mk (s2l ("b")) none none Schema.Int
      RecordFieldOrder.Ascending none 0) = 0 :=
  claim_C3_amended 100 c3_input [] c3_record rfl
    (RecordField.mk (s2l ("b")) none none Schema.Int RecordFieldOrder.Ascending none 0)
    (List.Mem.tail _ (List.Mem.head _))

/-- Claim C4 (code bug exhibit): an unrecognized logicalType tag drives
parse_logical_type into the todo arm of the source, a panic (a fatal
abort), not a reported error — while a recognized tag succeeds. -/
theorem claim_C4_code_bug :
    parse_logical_type (s2l ("@logicalType(\"unknown-tag\")")) = .panicked ∧
    parse_logical_type (s2l ("@logicalType(\"timestamp-micros\")")) = .ok [] Schema.TimestampMicros :=
  ⟨rfl, rfl⟩

/-- Claim C5: in the record-of-record protocol, the reference resolves
to a deep, fully inlined copy of the Hello record: the parse returns
exactly the two expected trees, the schema of field santi equals the
resolved Hello record, and no Ref (hence no back-reference of any
kind) remains in the Parent tree. -/
theorem claim_C5_deep_copy :
    parse c5_input = .ok [] [c5_hello, c5_parent] ∧
    (recordFields c5_parent).map RecordField.schema = [c5_hello] ∧
    schemaContainsRef c5_parent = false :=
  ⟨rfl, rfl, rfl⟩

/-- Claim C6: a union-typed field checks its default literal against
the grammar of the FIRST listed branch only: parse_based_on_schema on
any non-empty union is the parser of the first variant, the
null-first union accepts a null default, and the int-first union
rejects a quoted-string default. -/
theorem claim_C6_union_first_branch :
    (∀ (fuel : Nat) (s : Schema) (ss : List Schema),
       parse_based_on_schema fuel (Schema.Union (s :: ss)) = parse_based_on_schema fuel s) ∧
    parse_union 100 c6_ok_input =
      .ok [] (Schema.Union [.Null, .String], none, none, none, s2l ("item_id"),
              some JsonValue.null) ∧
    parse_union 100 c6_bad_input = .err :=
  ⟨fun fuel s ss => by rw [parse_based_on_schema], rfl, rfl⟩

/-- Claim C7: a successfully parsed record always has pairwise
distinct field names; when the plain field loop (without the check)
succeeds with pairwise distinct names, the checking loop returns the
identical result, so a record with distinct names never fails because
of the duplicate check; the concrete duplicate-name record fails to
parse even though its fields are grammatically parseable, and the
concrete distinct-name record parses. -/
theorem claim_C7_duplicate_fields :
    (∀ (fuel : Nat) (inp rest : Str) (sc : Schema),
       parse_record fuel inp = .ok rest sc →
       ((recordFields sc).map RecordField.name).Nodup) ∧
    (∀ (fuel : Nat) (inp rest : Str) (fs : List RecordField),
       collect_record_fields_nocheck fuel [] inp = .ok rest fs →
       (fs.map RecordField.name).Nodup →
       collect_record_fields fuel [] [] inp = .ok rest fs) ∧
    parse_record 100 c7_dup_input = .err ∧
    collect_record_fields_nocheck 100 [] c7_dup_body = .ok (s2l ("\x7d")) c7_dup_fields ∧
    parse_record 100 c7_ok_input = .ok [] c7_ok_record := by
  refine ⟨?_, ?_, rfl, rfl, rfl⟩
  · intro fuel inp rest sc h
    obtain ⟨i1, i2, hc⟩ := parse_record_ok_inv h
    exact collect_fields_nodup fuel [] [] i1 i2 (recordFields sc) hc (by simp) (by simp)
  · intro fuel inp rest fs h hnd
    exact collect_eq_nocheck fuel [] [] inp rest fs fs h (by simp) hnd (by simp)

/-- Witness for claim C7: both universal parts applied to the concrete
distinct-name record. -/
theorem claim_C7_witness :
    ((recordFields c7_ok_record).map RecordField.name).Nodup ∧
    collect_record_fields 100 [] [] c7_ok_body = .ok (s2l ("\x7d")) c7_ok_fields :=
  ⟨claim_C7_duplicate_fields.1 100 c7_ok_input [] c7_ok_record rfl,
   claim_C7_duplicate_fields.2.1 100 c7_ok_body (s2l ("\x7d")) c7_ok_fields rfl (by decide)⟩

/-- Claim C8: the identifier parser consumes exactly a maximal
identifier span (first character alphabetic or underscore, rest
alphanumeric or underscore) and leaves the remainder; empty input,
digit-leading input and symbol-leading input fail.  (The character
classes are the ASCII fragment of the Rust Unicode predicates.) -/
theorem claim_C8_identifier :
    (∀ (c : Char) (span rest : Str),
       (c.isAlpha || c = '_') = true →
       (∀ ch ∈ span, (ch.isAlphanum || ch = '_') = true) →
       (∀ d ds, rest = d :: ds → (d.isAlphanum || d = '_') = false) →
       parse_var_name ((c :: span) ++ rest) = .ok rest (c :: span)) ∧
    parse_var_name [] = .err ∧
    (∀ (c : Char) (rest : Str), c.isDigit = true → parse_var_name (c :: rest) = .err) ∧
    (∀ (c : Char) (rest : Str), (c.isAlphanum || c = '_') = false →
       parse_var_name (c :: rest) = .err) := by
  refine ⟨?_, rfl, ?_, ?_⟩
  · intro c span rest hc hspan hrest
    have hall : ∀ ch ∈ c :: span, (ch.isAlphanum || ch = '_') = true := by
      intro ch hch
      rcases List.mem_cons.mp hch with hch | hch
      · rw [hch]; exact ident_start_alphanum c hc
      · exact hspan ch hch
    have hsplit := ptakeWhile_split (fun ch => ch.isAlphanum || ch = '_')
      (c :: span) rest hall hrest
    unfold parse_var_name pverify
    rw [hsplit]
    simp [hc]
  · intro c rest h
    unfold parse_var_name pverify ptakeWhile
    simp only [List.takeWhile_cons, List.dropWhile_cons, digit_is_alphanum c h, if_true]
    simp [digit_not_ident_start c h]
  · intro c rest h
    unfold parse_var_name pverify ptakeWhile
    simp [List.takeWhile_cons, List.dropWhile_cons, h]

/-- Witness for claim C8: the success case at the identifier a
followed by a space, and the failure case at a digit-leading input. -/
theorem claim_C8_witness :
    parse_var_name (('a' :: []) ++ [' ']) = .ok [' '] ('a' :: []) ∧
    parse_var_name ('1' :: s2l ("x")) = .err :=
  ⟨claim_C8_identifier.1 'a' [] [' '] (by decide) (by simp)
     (by intro d ds h; injection h with h1 h2; rw [← h1]; decide),
   claim_C8_identifier.2.2.1 '1' (s2l ("x")) (by decide)⟩

/-- Claim C9 counterexample: after parsing the namespaced
record-of-record protocol, the namespace pass has set the root Parent
record namespace to ns.x, but the Hello record nested inside the
santi field keeps namespace none — the pass is not a walk over all
Record schemas. -/
theorem claim_C9_counterexample :
    parse c9_input = .ok [] [c9_hello_out, c9_parent_out] ∧
    rootRecordNs c9_parent_out = some (some (s2l ("ns.x"))) ∧
    firstFieldRecordNs c9_parent_out = some none ∧
    (some (none : Option Str)) ≠ some (some (s2l ("ns.x"))) :=
  ⟨rfl, rfl, rfl, by decide⟩

/-- Claim C9 as amended: namespace_solver touches only the root node
of each top-level schema — it overwrites the namespace of a root
Record with the protocol namespace and leaves every other schema, and
every nested record, unchanged, as the concrete run shows. -/
theorem claim_C9_amended :
    (∀ (encl : Option Str) (s : Schema),
       namespace_solver encl s =
         match s with
         | .Record n a d fs => .Record ⟨n.name, encl⟩ a d fs
         | s => s) ∧
    parse c9_input = .ok [] [c9_hello_out, c9_parent_out] ∧
    firstFieldRecordNs c9_parent_out = some none := by
  refine ⟨?_, rfl, rfl⟩
  intro encl s
  cases s <;> rfl

/-- Claim C10: whenever a prefix of the input parses as a protocol,
the top-level parse succeeds and always reports the empty string as
the remaining input, whatever trailing text follows — shown generally
and on a concrete input with trailing garbage. -/
theorem claim_C10_trailing_ignored :
    (∀ (inp rest : Str) (v : List Schema × Option Str × Table),
       parse_protocol (inp.length + 1) [] inp = .ok rest v →
       ∃ ss, parse inp = .ok [] ss) ∧
    parse c10_input = .ok [] [c10_record] := by
  refine ⟨?_, rfl⟩
  intro inp rest v h
  obtain ⟨schemas, nsOpt, names⟩ := v
  exact ⟨schemas.map (fun s => namespace_solver nsOpt (schema_solver names none s).2),
    by unfold parse; dsimp only; rw [h]⟩

/-- Witness for claim C10: the universal part applied to the concrete
input with trailing garbage. -/
theorem claim_C10_witness :
    ∃ ss, parse c10_input = .ok [] ss :=
  claim_C10_trailing_ignored.1 c10_input (s2l (" trailing garbage @@@"))
    ([c10_record], none, [(⟨s2l ("R"), none⟩, c10_record)]) rfl

end Avdl
